import Mathlib

/-!
Verification development for the Codex Dictionary client: the entry cache,
the background audio-materialization pipeline, and the audio container
encoder, embedded shallowly from the TypeScript sources
(`App.tsx`, `utils/audioUtils.ts`, `utils/storage.ts`, `types.ts`,
`components/ReviewCard.tsx`).

Samples are modelled as exact rationals: the doubles appearing in
`floatTo16BitPCM` (clamping, scaling by a power of two or by 32767 of a
float32 input, truncation by `DataView.setInt16`) are exact on the inputs
the encoder receives, so the rational model is faithful.  JavaScript
`DataView.setInt16` converts its argument with truncation toward zero and
wrap-around modulo 2^16; both are modelled explicitly.
-/

namespace CodexDict

/-! ## Audio container encoder (`src/utils/audioUtils.ts`) -/

/-- Truncation toward zero of a rational, the conversion JavaScript applies
to the number handed to `DataView.setInt16`. -/
def ratTrunc (q : ℚ) : ℤ := q.num.tdiv q.den

/-- Clamp to `[-1, 1]`, from `Math.max(-1, Math.min(1, input[i]))`. -/
def clamp1 (q : ℚ) : ℚ := max (-1) (min 1 q)

/-- Quantization of one sample, from `floatTo16BitPCM`:
`s < 0 ? s * 0x8000 : s * 0x7FFF` after clamping. -/
def quantize16 (q : ℚ) : ℤ :=
  if clamp1 q < 0 then ratTrunc (clamp1 q * 32768) else ratTrunc (clamp1 q * 32767)

/-- Two little-endian bytes of a 16-bit value, as `DataView.setUint16`
and `DataView.setInt16` lay them out. -/
def u16LE (n : Nat) : List Nat := [n % 256, n / 256 % 256]

/-- Four little-endian bytes of a 32-bit value (`DataView.setUint32`). -/
def u32LE (n : Nat) : List Nat :=
  [n % 256, n / 256 % 256, n / 65536 % 256, n / 16777216 % 256]

/-- Bytes of a signed 16-bit integer, little-endian, after the modulo-2^16
wrap `DataView.setInt16` performs. -/
def int16Bytes (v : ℤ) : List Nat := u16LE ((v % 65536).toNat)

/-- ASCII bytes of a header tag, from `writeString` (`charCodeAt`). -/
def strBytes (s : String) : List Nat := s.data.map (fun c => c.toNat % 256)

/-- Data section of the container: each sample quantized to signed 16-bit
little-endian (`floatTo16BitPCM`). -/
def floatTo16BitPCM (samples : List ℚ) : List Nat :=
  (samples.map (fun q => int16Bytes (quantize16 q))).flatten

/-- The 44-byte WAV header written by `pcmToWav` at offsets 0..43. -/
def wavHeader (channels sampleRate numSamples : Nat) : List Nat :=
  strBytes "RIFF" ++ u32LE (36 + numSamples * 2) ++ strBytes "WAVE" ++
  strBytes "fmt " ++ u32LE 16 ++ u16LE 1 ++ u16LE channels ++
  u32LE sampleRate ++ u32LE (sampleRate * channels * 2) ++
  u16LE (channels * 2) ++ u16LE 16 ++ strBytes "data" ++ u32LE (numSamples * 2)

/-- The full byte sequence produced by `pcmToWav`: header then data. -/
def pcmToWav (channels sampleRate : Nat) (samples : List ℚ) : List Nat :=
  wavHeader channels sampleRate samples.length ++ floatTo16BitPCM samples

/-- Recover the signed 16-bit value from two little-endian bytes. -/
def int16OfBytes (lo hi : Nat) : ℤ :=
  let u := lo % 256 + 256 * (hi % 256)
  if u < 32768 then (u : ℤ) else (u : ℤ) - 65536

/-- Map a signed 16-bit value back to a normalized sample, inverting the
scale used by the encoder (negative by 32768, nonnegative by 32767). -/
def dequantize16 (v : ℤ) : ℚ :=
  if v < 0 then (v : ℚ) / 32768 else (v : ℚ) / 32767

/-- Parse a byte sequence as consecutive signed 16-bit little-endian
samples mapped back to floats. -/
def parseData : List Nat → List ℚ
  | lo :: hi :: rest => dequantize16 (int16OfBytes lo hi) :: parseData rest
  | _ => []

/-- Parse the data section of a WAV container (bytes after the 44-byte
header). -/
def parseWavData (bytes : List Nat) : List ℚ := parseData (bytes.drop 44)

/-- Signed 16-bit little-endian pairs of a raw byte stream, as
`convertBase64PCMToWavBlob` reads the synthesized PCM. -/
def bytesToInt16 : List Nat → List ℤ
  | lo :: hi :: rest => int16OfBytes lo hi :: bytesToInt16 rest
  | _ => []

/-- The `base64PCM → WAV blob` conversion of `convertBase64PCMToWavBlob`
(after base64 decoding): int16 samples scaled by `1/32768`, then
`pcmToWav 1 24000`.  The byte stream it receives is the decoded payload. -/
def convertBase64PCMToWavBlob (bytes : List Nat) : List Nat :=
  pcmToWav 1 24000 ((bytesToInt16 bytes).map (fun v => (v : ℚ) / 32768))

/-! ## Binary object store (`src/utils/storage.ts`)

The IndexedDB object store `audio_blobs` keyed by the string
`` `${id}_${type}` `` is modelled as an association list from string keys
to byte blobs; `put` overwrites, `get` of an absent key is `none`. -/

/-- An audio payload, the bytes of the stored blob. -/
abbrev Blob := List Nat

/-- A snapshot of the `audio_blobs` object store. -/
abbrev Store := List (String × Blob)

/-- Composite key used by `saveAudioBlob`/`getAudioBlob`:
`` `${id}_${type}` ``. -/
def storageKey (id type : String) : String := id ++ "_" ++ type

/-- `store.put(blob, key)`: insert or overwrite. -/
def storePut (st : Store) (key : String) (b : Blob) : Store :=
  (key, b) :: st.filter (fun kv => kv.1 != key)

/-- `store.get(key)`: `none` models the `undefined` result for an absent
key. -/
def storeGet (st : Store) (key : String) : Option Blob :=
  (st.find? (fun kv => kv.1 == key)).map (fun kv => kv.2)

/-- `store.delete(key)` as performed by `deleteAudioBlob`. -/
def storeRemove (st : Store) (key : String) : Store :=
  st.filter (fun kv => kv.1 != key)

/-! ## Data model (`src/types.ts`) -/

/-- Structured result of the analysis collaborator (`analyzeText`); only
the fields `App.tsx` copies into the new entry are modelled. -/
structure Analysis where
  japanese : String
  reading : String
  romaji : String
  englishDefinition : String
  exampleJapanese : String
  exampleReading : String
  exampleEnglish : String
deriving DecidableEq

/-- The `DictionaryEntry` interface.  `audioUrl = none` is the
pending state (`null`/absent); `audioUrl = some url` is the ready state
holding the object-URL playable handle. -/
structure DictionaryEntry where
  id : String
  originalInput : String
  japanese : String
  reading : String
  romaji : String
  englishDefinition : String
  exampleJapanese : String
  exampleReading : String
  exampleEnglish : String
  timestamp : Nat
  audioUrl : Option String
deriving DecidableEq

/-- Placeholder entry used only as the default for positional lookups in
theorem statements. -/
def dummyEntry : DictionaryEntry :=
  { id := "", originalInput := "", japanese := "", reading := "", romaji := "",
    englishDefinition := "", exampleJapanese := "", exampleReading := "",
    exampleEnglish := "", timestamp := 0, audioUrl := none }

/-- Forget the playable handle: the projection under which rehydrated
entries must agree with the persisted records. -/
def stripAudio (e : DictionaryEntry) : DictionaryEntry := { e with audioUrl := none }

/-! ## Entry cache (`App.tsx`)

The component state together with the world it mutates: the blob store,
the object-URL counter (each `URL.createObjectURL` call yields a fresh
handle), and the handles released by `URL.revokeObjectURL`. -/

structure AppState where
  inputText : String
  isAnalyzing : Bool
  isInitializing : Bool
  error : Option String
  dictionaryItems : List DictionaryEntry
  latestItemId : Option String
  urlCounter : Nat
  revokedUrls : List String
  store : Store
deriving DecidableEq

/-- The fresh object URL returned by the `n`-th call to
`URL.createObjectURL` in a session. -/
def mkUrl (n : Nat) : String := "blob:" ++ toString n

/-- Observable side effects of a handler run, in order. -/
inductive Effect where
  | analyzeCall (text : String)
  | spawnMaterialize (id : String) (text : String)
  | synthCall (text : String)
  | storePutE (key : String)
  | storeDeleteE (key : String)
  | createUrl (url : String)
  | revokeUrl (url : String)
  | logError
deriving DecidableEq

/-- Whether an effect is a binary-store write at `key`. -/
def isStorePutFor (key : String) : Effect → Bool
  | Effect.storePutE k => k == key
  | _ => false

/-- Whether an effect derives a new playable handle. -/
def isCreateUrlEff : Effect → Bool
  | Effect.createUrl _ => true
  | _ => false

/-- Character class removed by JavaScript `String.prototype.trim`
(ECMAScript WhiteSpace and LineTerminator). -/
def isJsWhitespace (c : Char) : Bool :=
  c.val == 9 || c.val == 10 || c.val == 11 || c.val == 12 || c.val == 13 ||
  c.val == 32 || c.val == 0xa0 || c.val == 0x1680 ||
  (0x2000 ≤ c.val && c.val ≤ 0x200a) || c.val == 0x2028 || c.val == 0x2029 ||
  c.val == 0x202f || c.val == 0x205f || c.val == 0x3000 || c.val == 0xfeff

/-- JavaScript `String.prototype.trim` on a character list. -/
def jsTrim (s : List Char) : List Char :=
  ((s.dropWhile isJsWhitespace).reverse.dropWhile isJsWhitespace).reverse

/-- The entry built by `handleLookup` on analysis success: fresh id,
text fields from the analysis, `audioUrl: null`. -/
def mkEntry (newId input : String) (a : Analysis) (now : Nat) : DictionaryEntry :=
  { id := newId, originalInput := input, japanese := a.japanese,
    reading := a.reading, romaji := a.romaji,
    englishDefinition := a.englishDefinition,
    exampleJapanese := a.exampleJapanese, exampleReading := a.exampleReading,
    exampleEnglish := a.exampleEnglish, timestamp := now, audioUrl := none }

/-- `generateAndSaveAudio(id, text)`: synthesize, convert to a WAV blob,
derive an object URL, persist the blob under `(id, "native")`, then update
the matching entry (a plain `map`, so an absent id changes nothing).  The
synthesis outcome is passed in as `synthResult` (decoded bytes on
success); any failure is caught, logged, and leaves the state unchanged. -/
def generateAndSaveAudio (s : AppState) (id text : String)
    (synthResult : Except String (List Nat)) : AppState × List Effect :=
  match synthResult with
  | Except.error _ => (s, [Effect.synthCall text, Effect.logError])
  | Except.ok pcmBytes =>
      let wavBlob := convertBase64PCMToWavBlob pcmBytes
      let url := mkUrl s.urlCounter
      let s1 := { s with urlCounter := s.urlCounter + 1 }
      let s2 := { s1 with store := storePut s1.store (storageKey id "native") wavBlob }
      let s3 := { s2 with dictionaryItems := s2.dictionaryItems.map (fun item =>
          if item.id == id then { item with audioUrl := some url } else item) }
      (s3, [Effect.synthCall text, Effect.createUrl url,
            Effect.storePutE (storageKey id "native")])

/-- `handleLookup()`: guard on trimmed input, then await the analysis
(outcome passed in as `analysisResult`).  On failure set the error and
insert nothing; on success prepend the new entry, reset the input, and
spawn the background materialization (recorded as an effect — the state
returned is the one the caller observes before any audio work). -/
def handleLookup (s : AppState) (newId : String) (now : Nat)
    (analysisResult : Except String Analysis) : AppState × List Effect :=
  if (jsTrim s.inputText.data).isEmpty then (s, [])
  else
    let s1 := { s with isAnalyzing := true, error := none, latestItemId := none }
    match analysisResult with
    | Except.error msg =>
        ({ s1 with error := some msg, isAnalyzing := false },
         [Effect.analyzeCall s.inputText])
    | Except.ok a =>
        ({ s1 with
             dictionaryItems := mkEntry newId s.inputText a now :: s1.dictionaryItems,
             latestItemId := some newId, inputText := "", isAnalyzing := false },
         [Effect.analyzeCall s.inputText, Effect.spawnMaterialize newId a.japanese])

/-- `handlePlayRequest(id)`: look the entry up by id; absent means no-op,
otherwise trigger `generateAndSaveAudio` with the entry's `japanese`
field — unconditionally, with no check of `audioUrl` and no per-id
dedup. -/
def handlePlayRequest (s : AppState) (id : String)
    (synthResult : Except String (List Nat)) : AppState × List Effect :=
  match s.dictionaryItems.find? (fun i => i.id == id) with
  | none => (s, [])
  | some item => generateAndSaveAudio s id item.japanese synthResult

/-- Two `handlePlayRequest(id)` calls in succession, the scenario of the
dedup property (the handler never consults in-flight state, so the effects
are the same whether or not the first materialization has completed). -/
def playTwice (s : AppState) (id : String)
    (r1 r2 : Except String (List Nat)) : AppState × List Effect :=
  let p1 := handlePlayRequest s id r1
  let p2 := handlePlayRequest p1.1 id r2
  (p2.1, p1.2 ++ p2.2)

/-- The synchronous part of `handleDelete(id)`: revoke the entry's object
URL if it has one, then filter the entry out of the collection.  This is
the state visible when `deleteAudioBlob` is still in flight. -/
def handleDeleteSync (s : AppState) (id : String) : AppState :=
  let s1 :=
    match s.dictionaryItems.find? (fun item => item.id == id) with
    | some item =>
        match item.audioUrl with
        | some url => { s with revokedUrls := url :: s.revokedUrls }
        | none => s
    | none => s
  { s1 with dictionaryItems := s1.dictionaryItems.filter (fun item => item.id != id) }

/-- `handleDelete(id)` including the awaited `deleteAudioBlob`: a store
failure is caught and logged, never surfaced, and the in-memory removal
stands either way. -/
def handleDelete (s : AppState) (id : String)
    (deleteResult : Except String Unit) : AppState × List Effect :=
  let s2 := handleDeleteSync s id
  match deleteResult with
  | Except.ok _ =>
      ({ s2 with store := storeRemove s2.store (storageKey id "native") },
       [Effect.storeDeleteE (storageKey id "native")])
  | Except.error _ =>
      (s2, [Effect.storeDeleteE (storageKey id "native"), Effect.logError])

/-- Rehydration of one record list (the `parsed.map` inside
`loadHistory`): a record whose blob is in the store gets a fresh object
URL, otherwise `audioUrl: null`.  The counter threads the fresh-URL
supply. -/
def hydrate (st : Store) (ctr : Nat) : List DictionaryEntry → List DictionaryEntry × Nat
  | [] => ([], ctr)
  | item :: rest =>
      match storeGet st (storageKey item.id "native") with
      | some _ =>
          let t := hydrate st (ctr + 1) rest
          ({ item with audioUrl := some (mkUrl ctr) } :: t.1, t.2)
      | none =>
          let t := hydrate st ctr rest
          ({ item with audioUrl := none } :: t.1, t.2)

/-- `loadHistory()`: absent snapshot returns early; an unparsable one
throws inside the `try` and is caught; both leave the collection as it
was and finish initialization.  A parsed snapshot is rehydrated against
the blob store. -/
def loadHistory (s : AppState)
    (snapshot : Option (Except String (List DictionaryEntry))) : AppState :=
  match snapshot with
  | none => { s with isInitializing := false }
  | some (Except.error _) => { s with isInitializing := false }
  | some (Except.ok parsed) =>
      let t := hydrate s.store s.urlCounter parsed
      { s with dictionaryItems := t.1, urlCounter := t.2, isInitializing := false }

/-- The component state at mount, before `loadHistory` runs. -/
def initState (st : Store) : AppState :=
  { inputText := "", isAnalyzing := false, isInitializing := true,
    error := none, dictionaryItems := [], latestItemId := none,
    urlCounter := 0, revokedUrls := [], store := st }

/-! ## Playback controller (`src/components/ReviewCard.tsx`) -/

/-- Per-card playback state.  `pendingLoopTimer = some d` models an armed
`setTimeout` restart `d` milliseconds away; `clearTimeout` sets it back to
`none`. -/
structure CardState where
  audioUrl : Option String
  isPlaying : Bool
  isAudioLoading : Bool
  isLooping : Bool
  isSlow : Bool
  pendingLoopTimer : Option Nat
deriving DecidableEq

/-- `handleAudioEnded`: natural end of audio.  Looping schedules a restart
after the fixed 1000 ms delay; otherwise stop. -/
def handleAudioEnded (s : CardState) : CardState :=
  if s.isLooping then { s with pendingLoopTimer := some 1000 }
  else { s with isPlaying := false }

/-- `togglePlay`: with no handle yet, request materialization once
(the returned flag is the `onPlayRequest` call); with a handle, clear any
pending loop restart, then pause if playing or start if stopped. -/
def togglePlay (s : CardState) : CardState × Bool :=
  match s.audioUrl with
  | none =>
      if !s.isAudioLoading then ({ s with isAudioLoading := true }, true)
      else (s, false)
  | some _ =>
      let s1 := { s with pendingLoopTimer := none }
      if s1.isPlaying then ({ s1 with isPlaying := false }, false)
      else ({ s1 with isPlaying := true }, false)

/-- The unmount cleanup effect: `clearTimeout` on any pending loop
restart. -/
def unmountCleanup (s : CardState) : CardState := { s with pendingLoopTimer := none }

/-- Firing of an armed loop-restart timer; a cleared timer cannot fire. -/
def loopTimerFire (s : CardState) : CardState :=
  match s.pendingLoopTimer with
  | some _ => { s with pendingLoopTimer := none, isPlaying := true }
  | none => s

/-! ## Concrete fixtures used by witnesses and counterexamples -/

/-- Analysis result used by the lookup witness. -/
def wAnalysis : Analysis :=
  { japanese := "林檎", reading := "りんご", romaji := "ringo",
    englishDefinition := "apple", exampleJapanese := "林檎を食べる",
    exampleReading := "りんごをたべる", exampleEnglish := "I eat an apple." }

/-- App state with one pending entry, for the double-playback scenario. -/
def cx2Entry : DictionaryEntry := { dummyEntry with id := "a", japanese := "hello" }

def cx2State : AppState := { initState [] with dictionaryItems := [cx2Entry] }

/-- App state with one entry already `Ready` (a handle is present). -/
def cx3Entry : DictionaryEntry :=
  { dummyEntry with id := "a", japanese := "hello", audioUrl := some "blob:0" }

def cx3State : AppState :=
  { initState [] with dictionaryItems := [cx3Entry], urlCounter := 1 }

/-- App state with one entry holding a handle, for the deletion witness. -/
def wDelEntry : DictionaryEntry := { dummyEntry with id := "a", audioUrl := some "u0" }

def wDelState : AppState := { initState [] with dictionaryItems := [wDelEntry] }

/-- Persisted records and store for the rehydration witness: entry `A` has
a stored payload, entry `B` does not. -/
def wEntryA : DictionaryEntry := { dummyEntry with id := "A" }

def wEntryB : DictionaryEntry := { dummyEntry with id := "B" }

def wStore : Store := [(storageKey "A" "native", [1, 2, 3])]

/-- Card states for the playback-controller witness. -/
def wCardLoop : CardState :=
  { audioUrl := some "u", isPlaying := true, isAudioLoading := false,
    isLooping := true, isSlow := false, pendingLoopTimer := none }

def wCardPlaying : CardState :=
  { audioUrl := some "u", isPlaying := true, isAudioLoading := false,
    isLooping := false, isSlow := false, pendingLoopTimer := some 1000 }

def wCardCleared : CardState :=
  { audioUrl := some "u", isPlaying := false, isAudioLoading := false,
    isLooping := true, isSlow := false, pendingLoopTimer := none }

/-! ## Properties of the encoder -/

theorem ratTrunc_eq_floor (q : ℚ) (h : 0 ≤ q) : ratTrunc q = ⌊q⌋ := by
  rw [Rat.floor_def, ratTrunc, Int.tdiv_eq_ediv (Rat.num_nonneg.mpr h) (by positivity)]

theorem ratTrunc_eq_ceil (q : ℚ) (h : q ≤ 0) : ratTrunc q = ⌈q⌉ := by
  have hn : 0 ≤ -q := by linarith
  have h1 : ratTrunc (-q) = ⌊-q⌋ := ratTrunc_eq_floor _ hn
  rw [Int.floor_neg] at h1
  have h2 : ratTrunc (-q) = -(ratTrunc q) := by
    unfold ratTrunc
    rw [Rat.neg_num, Rat.neg_den, Int.neg_tdiv]
  omega

theorem clamp1_lower (q : ℚ) : -1 ≤ clamp1 q := le_max_left _ _

theorem clamp1_upper (q : ℚ) : clamp1 q ≤ 1 := max_le (by norm_num) (min_le_left _ _)

theorem quantize16_bounds (q : ℚ) : -32768 ≤ quantize16 q ∧ quantize16 q ≤ 32767 := by
  have hc1 := clamp1_lower q
  have hc2 := clamp1_upper q
  unfold quantize16
  by_cases hs : clamp1 q < 0
  · rw [if_pos hs, ratTrunc_eq_ceil _ (by nlinarith)]
    constructor
    · have h3 : ((-32768 : ℤ) : ℚ) ≤ (⌈clamp1 q * 32768⌉ : ℚ) :=
        le_trans (by push_cast; nlinarith) (Int.le_ceil _)
      exact_mod_cast h3
    · have h4 : ⌈clamp1 q * 32768⌉ ≤ (0 : ℤ) :=
        Int.ceil_le.mpr (by push_cast; nlinarith)
      omega
  · rw [if_neg hs]
    have hs0 : 0 ≤ clamp1 q := not_lt.mp hs
    rw [ratTrunc_eq_floor _ (by positivity)]
    constructor
    · have h3 : (0 : ℤ) ≤ ⌊clamp1 q * 32767⌋ := Int.floor_nonneg.mpr (by positivity)
      omega
    · have h4 : (⌊clamp1 q * 32767⌋ : ℚ) ≤ ((32767 : ℤ) : ℚ) :=
        le_trans (Int.floor_le _) (by push_cast; nlinarith)
      exact_mod_cast h4

/-- Key quantization-error bound: decoding the quantized sample lands
strictly within `1/32767` of the clamped input.  The negative branch is
within `1/32768`; the positive branch, scaled by `32767`, only within
`1/32767`. -/
theorem dequantize_quantize_close (q : ℚ) :
    |dequantize16 (quantize16 q) - clamp1 q| < 1 / 32767 := by
  have hc1 := clamp1_lower q
  have hc2 := clamp1_upper q
  by_cases hs : clamp1 q < 0
  · have hq : quantize16 q = ⌈clamp1 q * 32768⌉ := by
      rw [quantize16, if_pos hs, ratTrunc_eq_ceil _ (by nlinarith)]
    have hle : clamp1 q * 32768 ≤ (⌈clamp1 q * 32768⌉ : ℚ) := Int.le_ceil _
    have hlt : (⌈clamp1 q * 32768⌉ : ℚ) < clamp1 q * 32768 + 1 := Int.ceil_lt_add_one _
    by_cases hv0 : ⌈clamp1 q * 32768⌉ < 0
    · have hd : dequantize16 (quantize16 q) = ((⌈clamp1 q * 32768⌉ : ℤ) : ℚ) / 32768 := by
        rw [hq, dequantize16, if_pos hv0]
      rw [hd]
      have hb : |((⌈clamp1 q * 32768⌉ : ℤ) : ℚ) / 32768 - clamp1 q| < 1 / 32768 := by
        rw [abs_lt]
        constructor
        · have : clamp1 q ≤ ((⌈clamp1 q * 32768⌉ : ℤ) : ℚ) / 32768 :=
            (le_div_iff₀ (by norm_num : (0 : ℚ) < 32768)).mpr (by linarith)
          linarith
        · have : ((⌈clamp1 q * 32768⌉ : ℤ) : ℚ) / 32768 < clamp1 q + 1 / 32768 :=
            (div_lt_iff₀ (by norm_num : (0 : ℚ) < 32768)).mpr (by ring_nf; ring_nf at hlt; linarith)
          linarith
      calc |((⌈clamp1 q * 32768⌉ : ℤ) : ℚ) / 32768 - clamp1 q| < 1 / 32768 := hb
        _ < 1 / 32767 := by norm_num
    · have hvle : ⌈clamp1 q * 32768⌉ ≤ 0 := Int.ceil_le.mpr (by push_cast; nlinarith)
      have hv0eq : ⌈clamp1 q * 32768⌉ = 0 := le_antisymm hvle (not_lt.mp hv0)
      have hd : dequantize16 (quantize16 q) = 0 := by
        rw [hq, hv0eq]
        norm_num [dequantize16]
      rw [hd, zero_sub, abs_neg, abs_of_neg hs]
      have hz : (0 : ℚ) < clamp1 q * 32768 + 1 := by
        rw [hv0eq] at hlt
        exact_mod_cast hlt
      have h1 : -(clamp1 q) < 1 / 32768 := by linarith
      calc -(clamp1 q) < 1 / 32768 := h1
        _ < 1 / 32767 := by norm_num
  · have hs0 : 0 ≤ clamp1 q := not_lt.mp hs
    have hq : quantize16 q = ⌊clamp1 q * 32767⌋ := by
      rw [quantize16, if_neg hs, ratTrunc_eq_floor _ (by positivity)]
    have hle : ((⌊clamp1 q * 32767⌋ : ℤ) : ℚ) ≤ clamp1 q * 32767 := Int.floor_le _
    have hlt : clamp1 q * 32767 < (⌊clamp1 q * 32767⌋ : ℚ) + 1 := Int.lt_floor_add_one _
    have hv0 : (0 : ℤ) ≤ ⌊clamp1 q * 32767⌋ := Int.floor_nonneg.mpr (by positivity)
    have hd : dequantize16 (quantize16 q) = ((⌊clamp1 q * 32767⌋ : ℤ) : ℚ) / 32767 := by
      rw [hq, dequantize16, if_neg (by omega)]
    rw [hd, abs_lt]
    constructor
    · have : clamp1 q - 1 / 32767 < ((⌊clamp1 q * 32767⌋ : ℤ) : ℚ) / 32767 :=
        (lt_div_iff₀ (by norm_num : (0 : ℚ) < 32767)).mpr (by ring_nf; ring_nf at hlt; linarith)
      linarith
    · have : ((⌊clamp1 q * 32767⌋ : ℤ) : ℚ) / 32767 ≤ clamp1 q :=
        (div_le_iff₀ (by norm_num : (0 : ℚ) < 32767)).mpr (by linarith)
      have h17 : (0 : ℚ) < 1 / 32767 := by norm_num
      linarith

theorem parseData_int16Bytes_cons (v : ℤ) (rest : List Nat)
    (h1 : -32768 ≤ v) (h2 : v ≤ 32767) :
    parseData (int16Bytes v ++ rest) = dequantize16 v :: parseData rest := by
  have key : int16OfBytes ((v % 65536).toNat % 256) ((v % 65536).toNat / 256 % 256) = v := by
    simp only [int16OfBytes]
    split <;> omega
  simp only [int16Bytes, u16LE, List.cons_append, List.nil_append, parseData, key]
  rfl

theorem parseData_floatTo16BitPCM (samples : List ℚ) :
    parseData (floatTo16BitPCM samples)
      = samples.map (fun q => dequantize16 (quantize16 q)) := by
  induction samples with
  | nil => rfl
  | cons q rest ih =>
      have hb := quantize16_bounds q
      rw [floatTo16BitPCM, List.map_cons, List.flatten_cons,
        parseData_int16Bytes_cons _ _ hb.1 hb.2, List.map_cons]
      exact congrArg _ ih

/-! ## Properties of the entry cache -/

theorem jsTrim_eq_nil {l : List Char} (h : ∀ c ∈ l, isJsWhitespace c = true) :
    jsTrim l = [] := by
  unfold jsTrim
  rw [List.dropWhile_eq_nil_iff.mpr h]
  rfl

theorem handleDeleteSync_items (s : AppState) (id : String) :
    (handleDeleteSync s id).dictionaryItems
      = s.dictionaryItems.filter (fun item => item.id != id) := by
  unfold handleDeleteSync
  cases hf : s.dictionaryItems.find? (fun item => item.id == id) with
  | none => rfl
  | some item =>
      cases hu : item.audioUrl with
      | none => simp only [hu]
      | some url => simp only [hu]

theorem handleDeleteSync_error (s : AppState) (id : String) :
    (handleDeleteSync s id).error = s.error := by
  unfold handleDeleteSync
  cases hf : s.dictionaryItems.find? (fun item => item.id == id) with
  | none => rfl
  | some item =>
      cases hu : item.audioUrl with
      | none => simp only [hu]
      | some url => simp only [hu]

theorem handleDeleteSync_revoked (s : AppState) (id : String) (item : DictionaryEntry)
    (hf : s.dictionaryItems.find? (fun i => i.id == id) = some item)
    (url : String) (hu : item.audioUrl = some url) :
    (handleDeleteSync s id).revokedUrls = url :: s.revokedUrls := by
  unfold handleDeleteSync
  simp only [hf, hu]

theorem handleDelete_items (s : AppState) (id : String) (r : Except String Unit) :
    (handleDelete s id r).1.dictionaryItems = (handleDeleteSync s id).dictionaryItems := by
  cases r <;> rfl

theorem handleDelete_error (s : AppState) (id : String) (r : Except String Unit) :
    (handleDelete s id r).1.error = s.error := by
  cases r with
  | ok u => exact handleDeleteSync_error s id
  | error e => exact handleDeleteSync_error s id

theorem upd_map_id (l : List DictionaryEntry) (id url : String) :
    ((l.map (fun item =>
        if item.id == id then { item with audioUrl := some url } else item)).map
      (fun i => i.id)) = l.map (fun i => i.id) := by
  rw [List.map_map]
  apply List.map_congr_left
  intro a _
  by_cases h : (a.id == id) = true
  · simp only [Function.comp, h, if_true]
  · simp only [Function.comp, h, Bool.false_eq_true, if_false]

theorem map_upd_eq_self (l : List DictionaryEntry) (id url : String)
    (h : ∀ item ∈ l, (item.id == id) = false) :
    l.map (fun item =>
        if item.id == id then { item with audioUrl := some url } else item) = l := by
  have h2 : ∀ a ∈ l,
      (fun item => if item.id == id then { item with audioUrl := some url } else item) a
        = a := by
    intro a ha
    simp only [h a ha, Bool.false_eq_true, if_false]
  conv_rhs => rw [← List.map_id l]
  exact List.map_congr_left h2

theorem find?_map_upd (l : List DictionaryEntry) (id url : String) :
    ((l.map (fun item =>
        if item.id == id then { item with audioUrl := some url } else item)).find?
      (fun i => i.id == id))
      = (l.find? (fun i => i.id == id)).map
          (fun item => { item with audioUrl := some url }) := by
  rw [List.find?_map]
  have hfun : ((fun i => i.id == id) ∘ (fun item =>
      if item.id == id then { item with audioUrl := some url } else item))
        = (fun i : DictionaryEntry => i.id == id) := by
    funext item
    by_cases h : (item.id == id) = true
    · simp only [Function.comp, h, if_true]
    · simp only [Function.comp, h, Bool.false_eq_true, if_false]
  rw [hfun]
  cases hf : l.find? (fun i => i.id == id) with
  | none => rfl
  | some item =>
      have hp := List.find?_some hf
      rw [Option.map_some', Option.map_some', if_pos hp]

theorem storeGet_storePut (st : Store) (key : String) (b : Blob) :
    storeGet (storePut st key b) key = some b := by
  unfold storeGet storePut
  rw [List.find?_cons_of_pos _ (by simp)]
  rfl

theorem hydrate_length (st : Store) (ctr : Nat) (l : List DictionaryEntry) :
    (hydrate st ctr l).1.length = l.length := by
  induction l generalizing ctr with
  | nil => rfl
  | cons a rest ih =>
      unfold hydrate
      cases hsg : storeGet st (storageKey a.id "native") with
      | some b => simpa using ih (ctr + 1)
      | none => simpa using ih ctr

theorem hydrate_getD (st : Store) (ctr : Nat) (l : List DictionaryEntry)
    (i : Nat) (hi : i < l.length) :
    stripAudio ((hydrate st ctr l).1.getD i dummyEntry)
        = stripAudio (l.getD i dummyEntry)
  ∧ ((hydrate st ctr l).1.getD i dummyEntry).audioUrl.isSome
        = (storeGet st (storageKey ((l.getD i dummyEntry).id) "native")).isSome := by
  induction l generalizing ctr i with
  | nil => exact absurd hi (by simp)
  | cons a rest ih =>
      unfold hydrate
      cases hsg : storeGet st (storageKey a.id "native") with
      | some b =>
          cases i with
          | zero => exact ⟨rfl, by simp only [List.getD_cons_zero]; rw [hsg]; rfl⟩
          | succ n =>
              have h := ih (ctr + 1) n (by simpa using hi)
              simpa using h
      | none =>
          cases i with
          | zero => exact ⟨rfl, by simp only [List.getD_cons_zero]; rw [hsg]; rfl⟩
          | succ n =>
              have h := ih ctr n (by simpa using hi)
              simpa using h

/-! ## Claims -/

/-- C1: for input non-empty after trimming, `lookup` either (on analysis
success) inserts exactly one new entry — fresh unique id, Pending audio
state (`audioUrl = none`), prepended to the front — returning control
before any audio work (store untouched, materialization only spawned), or
(on analysis failure) surfaces the error and leaves the collection
unchanged with no insertion. -/
theorem lookup_inserts_pending_or_errors (s : AppState) (newId : String) (now : Nat)
    (hne : (jsTrim s.inputText.data).isEmpty = false)
    (hfresh : ∀ item ∈ s.dictionaryItems, item.id ≠ newId) :
    (∀ a : Analysis,
        (handleLookup s newId now (Except.ok a)).1.dictionaryItems
            = mkEntry newId s.inputText a now :: s.dictionaryItems
      ∧ (mkEntry newId s.inputText a now).audioUrl = none
      ∧ (handleLookup s newId now (Except.ok a)).1.dictionaryItems.countP
            (fun i => i.id == newId) = 1
      ∧ (handleLookup s newId now (Except.ok a)).1.error = none
      ∧ (handleLookup s newId now (Except.ok a)).1.store = s.store
      ∧ (handleLookup s newId now (Except.ok a)).2
            = [Effect.analyzeCall s.inputText, Effect.spawnMaterialize newId a.japanese])
  ∧ (∀ msg : String,
        (handleLookup s newId now (Except.error msg)).1.dictionaryItems
            = s.dictionaryItems
      ∧ (handleLookup s newId now (Except.error msg)).1.error = some msg
      ∧ (handleLookup s newId now (Except.error msg)).1.store = s.store
      ∧ (handleLookup s newId now (Except.error msg)).2
            = [Effect.analyzeCall s.inputText]) := by
  constructor
  · intro a
    have hif : handleLookup s newId now (Except.ok a)
        = ({ s with
              isAnalyzing := false
              error := none
              dictionaryItems := mkEntry newId s.inputText a now :: s.dictionaryItems
              latestItemId := some newId
              inputText := "" },
           [Effect.analyzeCall s.inputText, Effect.spawnMaterialize newId a.japanese]) := by
      unfold handleLookup
      rw [if_neg (by simp [hne])]
    rw [hif]
    refine ⟨rfl, rfl, ?_, rfl, rfl, rfl⟩
    show (mkEntry newId s.inputText a now :: s.dictionaryItems).countP
        (fun i => i.id == newId) = 1
    rw [List.countP_cons]
    have hz : s.dictionaryItems.countP (fun i => i.id == newId) = 0 :=
      List.countP_eq_zero.mpr (fun item hm => by simpa using hfresh item hm)
    simp [mkEntry, hz]
  · intro msg
    have hif : handleLookup s newId now (Except.error msg)
        = ({ s with
              isAnalyzing := false
              error := some msg
              latestItemId := none },
           [Effect.analyzeCall s.inputText]) := by
      unfold handleLookup
      rw [if_neg (by simp [hne])]
    rw [hif]
    exact ⟨rfl, rfl, rfl, rfl⟩

/-- C1 witness: a concrete lookup inserts the pending entry; a failing
analysis surfaces its message. -/
theorem lookup_inserts_pending_or_errors_witness :
    ((handleLookup { initState [] with inputText := "apple" } "id1" 7
        (Except.ok wAnalysis)).1.dictionaryItems
      = [mkEntry "id1" "apple" wAnalysis 7])
  ∧ ((handleLookup { initState [] with inputText := "apple" } "id1" 7
        (Except.error "AnalysisError")).1.error = some "AnalysisError") := by
  have h := lookup_inserts_pending_or_errors
      { initState [] with inputText := "apple" } "id1" 7 (by decide) (by decide)
  exact ⟨(h.1 wAnalysis).1, (h.2 "AnalysisError").2.1⟩

/-- C9: an input that is empty or all whitespace makes `handleLookup` a
silent no-op: no analysis call, no insertion, no error change — the state
is returned untouched with an empty effect list. -/
theorem lookup_whitespace_silent_noop (s : AppState) (newId : String) (now : Nat)
    (r : Except String Analysis)
    (hws : ∀ c ∈ s.inputText.data, isJsWhitespace c = true) :
    handleLookup s newId now r = (s, []) := by
  unfold handleLookup
  rw [jsTrim_eq_nil hws]
  rfl

/-- C9 witness: a blank input changes nothing even with a failing
analysis oracle. -/
theorem lookup_whitespace_silent_noop_witness :
    handleLookup { initState [] with inputText := "  " } "id9" 3 (Except.error "boom")
      = ({ initState [] with inputText := "  " }, []) :=
  lookup_whitespace_silent_noop _ "id9" 3 _ (by decide)

/-- C2 (amended): `handlePlayRequest` has no per-id dedup, so two calls
for an existing entry each run a full materialization: two store writes
for `(id, "native")`, two derived handles, no handle ever revoked, and
the entry keeps only the second handle (the first leaks). -/
theorem requestPlayback_twice_double_write (s : AppState) (id : String)
    (item : DictionaryEntry) (p1 p2 : List Nat)
    (hfind : s.dictionaryItems.find? (fun i => i.id == id) = some item) :
    ((playTwice s id (Except.ok p1) (Except.ok p2)).2.countP
        (isStorePutFor (storageKey id "native")) = 2)
  ∧ ((playTwice s id (Except.ok p1) (Except.ok p2)).2.countP isCreateUrlEff = 2)
  ∧ ((playTwice s id (Except.ok p1) (Except.ok p2)).1.revokedUrls = s.revokedUrls)
  ∧ ((playTwice s id (Except.ok p1) (Except.ok p2)).1.dictionaryItems.find?
        (fun i => i.id == id)
      = some { item with audioUrl := some (mkUrl (s.urlCounter + 1)) }) := by
  have h1 : handlePlayRequest s id (Except.ok p1)
      = generateAndSaveAudio s id item.japanese (Except.ok p1) := by
    unfold handlePlayRequest
    rw [hfind]
  have hfind2 : (generateAndSaveAudio s id item.japanese
        (Except.ok p1)).1.dictionaryItems.find? (fun i => i.id == id)
      = some { item with audioUrl := some (mkUrl s.urlCounter) } := by
    show (s.dictionaryItems.map (fun it =>
        if it.id == id then { it with audioUrl := some (mkUrl s.urlCounter) } else it)).find?
          (fun i => i.id == id)
        = some { item with audioUrl := some (mkUrl s.urlCounter) }
    rw [find?_map_upd, hfind]
    rfl
  have h2 : handlePlayRequest (generateAndSaveAudio s id item.japanese
        (Except.ok p1)).1 id (Except.ok p2)
      = generateAndSaveAudio (generateAndSaveAudio s id item.japanese
          (Except.ok p1)).1 id item.japanese (Except.ok p2) := by
    unfold handlePlayRequest
    rw [hfind2]
  have hpt : playTwice s id (Except.ok p1) (Except.ok p2)
      = ((generateAndSaveAudio (generateAndSaveAudio s id item.japanese
            (Except.ok p1)).1 id item.japanese (Except.ok p2)).1,
         (generateAndSaveAudio s id item.japanese (Except.ok p1)).2
           ++ (generateAndSaveAudio (generateAndSaveAudio s id item.japanese
                (Except.ok p1)).1 id item.japanese (Except.ok p2)).2) := by
    simp only [playTwice]
    rw [h1, h2]
  refine ⟨?_, ?_, ?_, ?_⟩
  · rw [hpt]
    show List.countP _ ([Effect.synthCall item.japanese,
        Effect.createUrl (mkUrl s.urlCounter),
        Effect.storePutE (storageKey id "native")]
      ++ [Effect.synthCall item.japanese,
        Effect.createUrl (mkUrl (s.urlCounter + 1)),
        Effect.storePutE (storageKey id "native")]) = 2
    simp [List.countP_append, List.countP_cons, isStorePutFor]
  · rw [hpt]
    show List.countP _ ([Effect.synthCall item.japanese,
        Effect.createUrl (mkUrl s.urlCounter),
        Effect.storePutE (storageKey id "native")]
      ++ [Effect.synthCall item.japanese,
        Effect.createUrl (mkUrl (s.urlCounter + 1)),
        Effect.storePutE (storageKey id "native")]) = 2
    simp [List.countP_append, List.countP_cons, isCreateUrlEff]
  · rw [hpt]
    rfl
  · rw [hpt]
    show ((s.dictionaryItems.map (fun it =>
          if it.id == id then { it with audioUrl := some (mkUrl s.urlCounter) } else it)).map
        (fun it =>
          if it.id == id then { it with audioUrl := some (mkUrl (s.urlCounter + 1)) }
          else it)).find? (fun i => i.id == id)
        = some { item with audioUrl := some (mkUrl (s.urlCounter + 1)) }
    rw [find?_map_upd, find?_map_upd, hfind]
    rfl

/-- C2 counterexample: two quick playback requests on a concrete pending
entry write the binary store twice for its key — not exactly once as
claimed. -/
theorem requestPlayback_twice_not_deduped :
    ((playTwice cx2State "a" (Except.ok []) (Except.ok [])).2.countP
        (isStorePutFor (storageKey "a" "native")) = 2)
  ∧ ¬ ((playTwice cx2State "a" (Except.ok []) (Except.ok [])).2.countP
        (isStorePutFor (storageKey "a" "native")) = 1) := by
  constructor <;> decide

/-- C2 witness: the amended two-write, two-handle behaviour at the
concrete state, with no handle revoked. -/
theorem requestPlayback_twice_double_write_witness :
    ((playTwice cx2State "a" (Except.ok []) (Except.ok [])).2.countP isCreateUrlEff = 2)
  ∧ ((playTwice cx2State "a" (Except.ok []) (Except.ok [])).1.revokedUrls = []) := by
  have h := requestPlayback_twice_double_write cx2State "a" cx2Entry [] [] (by decide)
  exact ⟨h.2.1, h.2.2.1⟩

/-- C3 (amended): `handlePlayRequest` is a no-op when the id is absent;
for any existing entry — Pending or already Ready — it always triggers a
materialization with the entry's `japanese` field: a synthesis call, and
on success exactly one store write and one new handle. -/
theorem requestPlayback_noop_or_materializes (s : AppState) (id : String) :
    (s.dictionaryItems.find? (fun i => i.id == id) = none →
        ∀ r, handlePlayRequest s id r = (s, []))
  ∧ (∀ item, s.dictionaryItems.find? (fun i => i.id == id) = some item →
        (∀ r, Effect.synthCall item.japanese ∈ (handlePlayRequest s id r).2)
      ∧ (∀ p, (handlePlayRequest s id (Except.ok p)).2.countP
            (isStorePutFor (storageKey id "native")) = 1)
      ∧ (∀ p, Effect.createUrl (mkUrl s.urlCounter)
            ∈ (handlePlayRequest s id (Except.ok p)).2)) := by
  constructor
  · intro h r
    unfold handlePlayRequest
    rw [h]
  · intro item h
    have hr : ∀ r, handlePlayRequest s id r
        = generateAndSaveAudio s id item.japanese r := by
      intro r
      unfold handlePlayRequest
      rw [h]
    refine ⟨fun r => ?_, fun p => ?_, fun p => ?_⟩
    · rw [hr r]
      cases r with
      | error e => exact List.mem_cons_self _ _
      | ok p => exact List.mem_cons_self _ _
    · rw [hr]
      show List.countP _ [Effect.synthCall item.japanese,
          Effect.createUrl (mkUrl s.urlCounter),
          Effect.storePutE (storageKey id "native")] = 1
      simp [List.countP_cons, isStorePutFor]
    · rw [hr]
      show Effect.createUrl (mkUrl s.urlCounter) ∈ [Effect.synthCall item.japanese,
          Effect.createUrl (mkUrl s.urlCounter),
          Effect.storePutE (storageKey id "native")]
      simp

/-- C3 counterexample: the concrete entry is Ready (`audioUrl` present),
yet `handlePlayRequest` still synthesizes, writes the store and derives a
new handle — not a no-op as claimed. -/
theorem requestPlayback_ready_not_noop :
    cx3Entry.audioUrl.isSome = true
  ∧ ((handlePlayRequest cx3State "a" (Except.ok [])).2.countP
        (isStorePutFor (storageKey "a" "native")) = 1)
  ∧ Effect.synthCall "hello" ∈ (handlePlayRequest cx3State "a" (Except.ok [])).2
  ∧ ¬ ((handlePlayRequest cx3State "a" (Except.ok [])).2 = []) := by
  refine ⟨rfl, by decide, by decide, by decide⟩

/-- C3 witness: no-op on an absent id; one store write on a present one. -/
theorem requestPlayback_noop_or_materializes_witness :
    (handlePlayRequest cx3State "zzz" (Except.ok []) = (cx3State, []))
  ∧ ((handlePlayRequest cx3State "a" (Except.ok [])).2.countP
        (isStorePutFor (storageKey "a" "native")) = 1) :=
  ⟨(requestPlayback_noop_or_materializes cx3State "zzz").1 (by decide) (Except.ok []),
   ((requestPlayback_noop_or_materializes cx3State "a").2 cx3Entry (by decide)).2.1 []⟩

/-- C4: right after the synchronous part of `handleDelete` the entry is
gone from the collection and its handle (if any) has been revoked; the
awaited store deletion, succeed or fail, never changes that view, never
surfaces an error (a failure is only logged), and performs no rollback. -/
theorem deleteEntry_removes_and_releases (s : AppState) (id : String) :
    ((handleDeleteSync s id).dictionaryItems.all (fun i => i.id != id) = true)
  ∧ (∀ item, s.dictionaryItems.find? (fun i => i.id == id) = some item →
        ∀ url, item.audioUrl = some url → url ∈ (handleDeleteSync s id).revokedUrls)
  ∧ (∀ r, (handleDelete s id r).1.dictionaryItems
        = (handleDeleteSync s id).dictionaryItems)
  ∧ (∀ r, (handleDelete s id r).1.error = s.error)
  ∧ (∀ msg, (handleDelete s id (Except.error msg)).2
        = [Effect.storeDeleteE (storageKey id "native"), Effect.logError]) := by
  refine ⟨?_, ?_, handleDelete_items s id, handleDelete_error s id, fun msg => rfl⟩
  · rw [handleDeleteSync_items, List.all_eq_true]
    intro i hi
    exact (List.mem_filter.mp hi).2
  · intro item hf url hu
    rw [handleDeleteSync_revoked s id item hf url hu]
    exact List.mem_cons_self _ _

/-- C4 witness: deleting the concrete entry revokes its handle; a failing
store deletion leaves the removal in place and surfaces nothing. -/
theorem deleteEntry_removes_and_releases_witness :
    "u0" ∈ (handleDeleteSync wDelState "a").revokedUrls
  ∧ (handleDelete wDelState "a" (Except.error "fail")).1.dictionaryItems
      = (handleDeleteSync wDelState "a").dictionaryItems
  ∧ (handleDelete wDelState "a" (Except.error "fail")).1.error = none := by
  have h := deleteEntry_removes_and_releases wDelState "a"
  exact ⟨h.2.1 wDelEntry (by decide) "u0" rfl,
    h.2.2.1 (Except.error "fail"),
    h.2.2.2.1 (Except.error "fail")⟩

/-- C5: `loadHistory` maps each persisted record, in stored order, to an
entry agreeing with the record on every persisted field; a record with a
stored payload gets a handle (Ready), one without stays Pending
(`audioUrl = none`); an absent or unparsable snapshot leaves the
collection empty, and initialization always completes. -/
theorem rehydrate_restores_order_and_audio (st : Store) (parsed : List DictionaryEntry) :
    ((loadHistory (initState st) none).dictionaryItems = []
  ∧ (loadHistory (initState st) none).isInitializing = false)
  ∧ (∀ e, (loadHistory (initState st) (some (Except.error e))).dictionaryItems = []
  ∧ (loadHistory (initState st) (some (Except.error e))).isInitializing = false)
  ∧ ((loadHistory (initState st) (some (Except.ok parsed))).dictionaryItems.length
        = parsed.length)
  ∧ (∀ i, i < parsed.length →
        stripAudio ((loadHistory (initState st)
            (some (Except.ok parsed))).dictionaryItems.getD i dummyEntry)
          = stripAudio (parsed.getD i dummyEntry)
      ∧ ((loadHistory (initState st)
            (some (Except.ok parsed))).dictionaryItems.getD i dummyEntry).audioUrl.isSome
          = (storeGet st (storageKey ((parsed.getD i dummyEntry).id) "native")).isSome)
  ∧ (loadHistory (initState st) (some (Except.ok parsed))).isInitializing = false := by
  refine ⟨⟨rfl, rfl⟩, fun e => ⟨rfl, rfl⟩, hydrate_length st 0 parsed, ?_, rfl⟩
  intro i hi
  exact hydrate_getD st 0 parsed i hi

/-- C5 witness: the two-record snapshot where only entry `A` has a stored
payload rehydrates to `A` Ready and `B` Pending, in order. -/
theorem rehydrate_restores_order_and_audio_witness :
    ((loadHistory (initState wStore)
        (some (Except.ok [wEntryA, wEntryB]))).dictionaryItems.getD 0
          dummyEntry).audioUrl.isSome = true
  ∧ ((loadHistory (initState wStore)
        (some (Except.ok [wEntryA, wEntryB]))).dictionaryItems.getD 1
          dummyEntry).audioUrl.isSome = false := by
  have h0 := (rehydrate_restores_order_and_audio wStore [wEntryA, wEntryB]).2.2.2.1
      0 (by decide)
  have h1 := (rehydrate_restores_order_and_audio wStore [wEntryA, wEntryB]).2.2.2.1
      1 (by decide)
  exact ⟨h0.2.trans (by decide), h1.2.trans (by decide)⟩

/-- C6 (amended): for every channel count, sample rate and sample list,
parsing the data section back yields per sample exactly the
quantize-dequantize value, which lies within 16-bit quantization error —
strictly less than `1/32767` — of the clamped original (`1/32768` is
exceeded for some positive samples; see the counterexample). -/
theorem audio_container_roundtrip (channels sampleRate : Nat) (samples : List ℚ) :
    parseWavData (pcmToWav channels sampleRate samples)
        = samples.map (fun q => dequantize16 (quantize16 q))
  ∧ (∀ q : ℚ, |dequantize16 (quantize16 q) - clamp1 q| < 1 / 32767) :=
  ⟨parseData_floatTo16BitPCM samples, dequantize_quantize_close⟩

/-- C6 counterexample: the sample `32769/2^30` (float32-representable,
just above `1/32768`) quantizes to `0` under the positive-branch scale
`32767`, so the parsed-back value misses it by more than the claimed
`1/32768` bound. -/
theorem audio_roundtrip_error_exceeds_bound :
    parseWavData (pcmToWav 1 24000 [(32769 : ℚ) / 1073741824]) = [0]
  ∧ ¬ (|(0 : ℚ) - clamp1 ((32769 : ℚ) / 1073741824)| ≤ 1 / 32768) := by
  constructor
  · with_unfolding_all rfl
  · have hc : clamp1 ((32769 : ℚ) / 1073741824) = (32769 : ℚ) / 1073741824 := by
      unfold clamp1
      rw [min_eq_right (by norm_num), max_eq_right (by norm_num)]
    rw [hc, zero_sub, abs_neg, abs_of_nonneg (by norm_num)]
    norm_num

/-- C7: a materialization completing after `handleDelete(id)` never
re-inserts the entry — its collection update leaves the deleted state's
collection unchanged — and in general the completion update never adds or
removes ids. -/
theorem delete_then_materialize_no_resurrection (s : AppState) (id text : String)
    (rDel : Except String Unit) (r : Except String (List Nat)) :
    (generateAndSaveAudio (handleDelete s id rDel).1 id text r).1.dictionaryItems
        = (handleDelete s id rDel).1.dictionaryItems
  ∧ (∀ t : AppState,
        ((generateAndSaveAudio t id text r).1.dictionaryItems.map (fun i => i.id))
          = t.dictionaryItems.map (fun i => i.id)) := by
  constructor
  · cases r with
    | error e => rfl
    | ok p =>
        show ((handleDelete s id rDel).1.dictionaryItems.map (fun it =>
            if it.id == id then
              { it with audioUrl := some (mkUrl (handleDelete s id rDel).1.urlCounter) }
            else it))
          = (handleDelete s id rDel).1.dictionaryItems
        apply map_upd_eq_self
        intro it hit
        rw [handleDelete_items, handleDeleteSync_items] at hit
        have h2 := (List.mem_filter.mp hit).2
        simpa using h2
  · intro t
    cases r with
    | error e => rfl
    | ok p => exact upd_map_id t.dictionaryItems id (mkUrl t.urlCounter)

/-- C8: on natural end-of-audio the controller schedules a restart after
the fixed 1000 ms delay iff looping, else transitions to stopped; a
manual toggle with a handle present and the unmount cleanup both clear
any scheduled restart, and a cleared timer never fires. -/
theorem playback_loop_and_stop (s : CardState) :
    (s.isLooping = true → handleAudioEnded s = { s with pendingLoopTimer := some 1000 })
  ∧ (s.isLooping = false → handleAudioEnded s = { s with isPlaying := false })
  ∧ (∀ u, s.audioUrl = some u → (togglePlay s).1.pendingLoopTimer = none)
  ∧ ((unmountCleanup s).pendingLoopTimer = none)
  ∧ (∀ t : CardState, t.pendingLoopTimer = none → loopTimerFire t = t) := by
  refine ⟨?_, ?_, ?_, rfl, ?_⟩
  · intro h
    unfold handleAudioEnded
    rw [if_pos h]
  · intro h
    unfold handleAudioEnded
    rw [if_neg (by simp [h])]
  · intro u hu
    unfold togglePlay
    rw [hu]
    dsimp only
    split <;> rfl
  · intro t ht
    unfold loopTimerFire
    rw [ht]

/-- C8 witness: concrete looping end schedules the 1000 ms restart; a
manual toggle clears the armed timer; a cleared timer firing is the
identity. -/
theorem playback_loop_and_stop_witness :
    handleAudioEnded wCardLoop = { wCardLoop with pendingLoopTimer := some 1000 }
  ∧ (togglePlay wCardPlaying).1.pendingLoopTimer = none
  ∧ loopTimerFire wCardCleared = wCardCleared :=
  ⟨(playback_loop_and_stop wCardLoop).1 rfl,
   (playback_loop_and_stop wCardPlaying).2.2.1 "u" rfl,
   (playback_loop_and_stop wCardLoop).2.2.2.2 wCardCleared rfl⟩

/-- C10: when synthesis succeeds for an id no longer in the collection,
the blob is still written under `(id, "native")` and a fresh handle is
still derived; only the collection update is skipped, leaving an orphaned
blob for an absent id. -/
theorem deleted_materialization_still_writes (s : AppState) (id text : String)
    (p : List Nat)
    (habs : ∀ item ∈ s.dictionaryItems, (item.id == id) = false) :
    (generateAndSaveAudio s id text (Except.ok p)).1.store
        = storePut s.store (storageKey id "native") (convertBase64PCMToWavBlob p)
  ∧ storeGet (generateAndSaveAudio s id text (Except.ok p)).1.store
        (storageKey id "native") = some (convertBase64PCMToWavBlob p)
  ∧ Effect.createUrl (mkUrl s.urlCounter) ∈ (generateAndSaveAudio s id text (Except.ok p)).2
  ∧ (generateAndSaveAudio s id text (Except.ok p)).1.dictionaryItems
        = s.dictionaryItems := by
  refine ⟨rfl, storeGet_storePut _ _ _, ?_, ?_⟩
  · show Effect.createUrl (mkUrl s.urlCounter) ∈ [Effect.synthCall text,
        Effect.createUrl (mkUrl s.urlCounter), Effect.storePutE (storageKey id "native")]
    simp
  · show s.dictionaryItems.map (fun item =>
        if item.id == id then { item with audioUrl := some (mkUrl s.urlCounter) }
        else item) = s.dictionaryItems
    exact map_upd_eq_self _ _ _ habs

/-- C10 witness: with an empty collection a successful materialization
still stores the blob under the deleted id's key. -/
theorem deleted_materialization_still_writes_witness :
    storeGet (generateAndSaveAudio (initState []) "a" "t" (Except.ok [])).1.store
        (storageKey "a" "native") = some (convertBase64PCMToWavBlob []) :=
  (deleted_materialization_still_writes (initState []) "a" "t" [] (by decide)).2.1

end CodexDict
